import Mathlib

/-!
Verification of the AxisOS front-end session/runtime controller
(`src/App.tsx`): shallow embedding of the boot sequencer, the session
log store, the submit pipeline and the push-event listener lifecycle,
with theorems about the specified properties.
-/

set_option linter.unusedVariables false

/-! ## Boot sequence (App.tsx: BOOT_STEPS, the Boot Sequence effect,
`renderedSteps`) -/

/-- Source: `type BootStatus = "pending" | "running" | "ok" | "failed"`. -/
inductive BootStatus where
  | pending
  | running
  | ok
  | failed
deriving DecidableEq, Repr

/-- Source: `interface BootStep { id: number; label: string; detail?: string }`. -/
structure BootStep where
  id : Nat
  label : String
  detail : Option String
deriving DecidableEq, Repr

/-- The static `BOOT_STEPS` configuration array. -/
def BOOT_STEPS : List BootStep :=
  [ ⟨1, "AxisOS Core", some "Initializing meta-OS kernel overlay"⟩,
    ⟨2, "Gemini Engine", some "Logic layer online (reasoning / planning)"⟩,
    ⟨3, "GPT Engine", some "Execution layer online (code / text / tools)"⟩,
    ⟨4, "Grok Engine", some "Monitoring layer online (web / anomaly)"⟩,
    ⟨5, "Neural Link", some "Connecting to Memory Banks..."⟩,
    ⟨6, "Local Node", some "System Ready."⟩ ]

/-- Source: `const STEP_INTERVAL_MS = 600`. -/
def STEP_INTERVAL_MS : Nat := 600

/-- The boot-relevant part of the component state: `bootIndex` (the
cursor, initially `-1`) and `bootCompleted`. -/
structure BootState where
  bootIndex : Int
  bootCompleted : Bool
deriving DecidableEq, Repr

/-- One tick of the boot interval timer (the `setInterval` callback of
the Boot Sequence effect).  When `bootCompleted` is set the effect has
already cleared the interval, so a tick is the identity; otherwise
`setBootIndex(prev => ...)` either advances the cursor or, when `next`
would reach `BOOT_STEPS.length`, sets `bootCompleted` and keeps `prev`. -/
def bootTick (s : BootState) : BootState :=
  if s.bootCompleted then s
  else
    let next := s.bootIndex + 1
    if next ≥ (BOOT_STEPS.length : Int) then { s with bootCompleted := true }
    else { s with bootIndex := next }

/-- The boot state after `k` timer ticks from the initial state
`{ bootIndex := -1, bootCompleted := false }`. -/
def bootAfter : Nat → BootState
  | 0 => ⟨-1, false⟩
  | k + 1 => bootTick (bootAfter k)

/-- Two-digit zero padding, as in `.toString().padStart(2, "0")`. -/
def pad2 (n : Nat) : String :=
  if n < 10 then "0" ++ toString n else toString n

/-- Helper `formatBootTime`: renders a millisecond timestamp as `HH:MM:SS`.
The source decomposes a `Date` via `getHours`/`getMinutes`/`getSeconds`;
the local-timezone offset is abstracted to zero here (no claim depends
on the digits, only on the `"--:--:--"` literal for pending steps). -/
def formatBootTime (ms : Int) : String :=
  let total := (ms / 1000).toNat
  pad2 (total / 3600 % 24) ++ ":" ++ pad2 (total / 60 % 60) ++ ":" ++ pad2 (total % 60)

/-- The status computation inside `renderedSteps` for the step at
`index`, given the cursor and completion flag. -/
def statusOf (index bootIndex : Int) (bootCompleted : Bool) : BootStatus :=
  if index < bootIndex then .ok
  else if index = bootIndex ∧ bootCompleted = false then .running
  else if bootCompleted = true ∧ index = (BOOT_STEPS.length : Int) - 1 then .ok
  else .pending

/-- The timestamp computation inside `renderedSteps`:
`ts = bootStart + min(index, bootIndex) * STEP_INTERVAL_MS`, rendered
only when `index ≤ bootIndex`, else the literal `"--:--:--"`. -/
def timestampOf (bootStart : Nat) (index bootIndex : Int) : String :=
  if index ≤ bootIndex then
    formatBootTime ((bootStart : Int) + min index bootIndex * (STEP_INTERVAL_MS : Int))
  else "--:--:--"

/-- Source: `interface RenderedStep extends BootStep { status; timestamp }`. -/
structure RenderedStep extends BootStep where
  status : BootStatus
  timestamp : String
deriving DecidableEq, Repr

/-- The `renderedSteps` memo: `BOOT_STEPS.map((step, index) => ...)`. -/
def renderedSteps (bootStart : Nat) (bootIndex : Int) (bootCompleted : Bool) :
    List RenderedStep :=
  BOOT_STEPS.mapIdx (fun index step =>
    { step with
      status := statusOf index bootIndex bootCompleted,
      timestamp := timestampOf bootStart index bootIndex })

/-! ## Chat data model (App.tsx: `AxisToken`, `InteractionLog`, the chat
state slots `logs`, `sessionId`, `inputValue`, `isThinking`) -/

/-- Source: `interface AxisToken { id; text; timestamp }`. -/
structure AxisToken where
  id : String
  text : String
  timestamp : Nat
deriving DecidableEq, Repr

/-- Source: `interface InteractionLog { id; session_id; timestamp; user_tokens;
ai_response; provider_used }`. -/
structure InteractionLog where
  id : String
  session_id : String
  timestamp : Nat
  user_tokens : List AxisToken
  ai_response : String
  provider_used : String
deriving DecidableEq, Repr

/-- The chat-relevant component state: `logs`, `sessionId` (active
session, initially `""`), `inputValue`, `isThinking` (the busy flag). -/
structure ChatState where
  logs : List InteractionLog
  sessionId : String
  inputValue : String
  isThinking : Bool
deriving DecidableEq, Repr

/-! ## Session list (App.tsx: the `sessions` memo) -/

/-- One insertion into a JS `Set` iterated in insertion order: append
`x` unless already present. -/
def insertUnique (acc : List String) (x : String) : List String :=
  if x ∈ acc then acc else acc ++ [x]

/-- Embeds `Array.from(new Set(logs.map(l => l.session_id)))`: the distinct
session ids of `logs` in first-appearance order. -/
def uniqueIds (logs : List InteractionLog) : List String :=
  logs.foldl (fun acc l => insertUnique acc l.session_id) []

/-- The `sessions` memo: the distinct ids, with the active `sessionId`
appended when it is truthy (non-empty) and not already present. -/
def sessions (logs : List InteractionLog) (sessionId : String) : List String :=
  let ids := uniqueIds logs
  if sessionId ≠ "" ∧ sessionId ∉ ids then ids ++ [sessionId] else ids

/-- The `currentLogs` memo: `logs.filter(l => l.session_id === sessionId)`. -/
def currentLogs (logs : List InteractionLog) (sessionId : String) : List InteractionLog :=
  logs.filter (fun l => l.session_id == sessionId)

/-! ## Startup history loading (App.tsx: the `init` function of the
History Loading effect) -/

/-- The `init` function: on a successful `fetch_history`, replaces
`logs` with the fetched `history`; if non-empty, the active session
becomes `history[history.length - 1].session_id`, otherwise a fresh
`crypto.randomUUID()` (passed in as `freshId`). -/
def init (s : ChatState) (history : List InteractionLog) (freshId : String) : ChatState :=
  match history.getLast? with
  | some last => { s with logs := history, sessionId := last.session_id }
  | none => { s with logs := history, sessionId := freshId }

/-- Handler `handleNewChat` (startNewSession): sets the active session to a fresh random id. -/
def handleNewChat (s : ChatState) (freshId : String) : ChatState :=
  { s with sessionId := freshId }

/-! ## Submit pipeline (App.tsx: `executeSend`) -/

/-- JS `String.prototype.trim()`: strip whitespace from both ends. -/
def trimString (s : String) : String :=
  ⟨((s.data.dropWhile Char.isWhitespace).reverse.dropWhile Char.isWhitespace).reverse⟩

/-- The backend round trips `executeSend` can issue, in order. -/
inductive BackendCall where
  | ask (input : String) (sessionId : String)
  | fetchHistory
deriving DecidableEq, Repr

/-- The outcome of one in-flight submission: the `ask_axis` invoke
rejects, the follow-up `fetch_history` rejects, or both succeed and the
provider returns `history`. -/
inductive AskOutcome where
  | askError
  | fetchError
  | success (history : List InteractionLog)
deriving DecidableEq, Repr

/-- Function `executeSend`, end to end, as a function of the pre-state and the
backend outcome; the second component lists the backend calls issued.
Guard: `if (inputValue.trim() && !isThinking)`.  Inside the guard the
input buffer is cleared and `isThinking` set, the `ask_axis` call is
issued with the trimmed text and the current session id, then
`fetch_history` replaces `logs`; the `catch` only logs, and the
`finally` clears `isThinking` on every path. -/
def executeSend (s : ChatState) (o : AskOutcome) : ChatState × List BackendCall :=
  if trimString s.inputValue ≠ "" ∧ s.isThinking = false then
    let text := trimString s.inputValue
    match o with
    | .askError =>
        ({ s with inputValue := "", isThinking := false },
         [.ask text s.sessionId])
    | .fetchError =>
        ({ s with inputValue := "", isThinking := false },
         [.ask text s.sessionId, .fetchHistory])
    | .success history =>
        ({ s with inputValue := "", isThinking := false, logs := history },
         [.ask text s.sessionId, .fetchHistory])
  else (s, [])

/-! ## Single-flight machine: interleaving of `submit` calls with
in-flight completions.  A `submit` event runs the synchronous head of
`executeSend` (guard, clear input, set busy, record the submission as
in flight); a `resolve` event completes the oldest in-flight submission
with a given outcome (backend calls, log replacement, `finally`). -/

/-- Machine state: the chat state, the outstanding submissions (their
trimmed texts, oldest first), and the accumulated backend calls. -/
structure MachineState where
  chat : ChatState
  inflight : List String
  calls : List BackendCall
deriving DecidableEq, Repr

/-- Events delivered to the single-threaded task queue. -/
inductive Event where
  | submit
  | resolve (o : AskOutcome)
deriving DecidableEq, Repr

/-- A quiescent machine over an initial chat state. -/
def initMachine (s : ChatState) : MachineState :=
  { chat := s, inflight := [], calls := [] }

/-- One event step.  `submit` is `executeSend` up to its first
suspension point; `resolve o` is the rest of `executeSend` for the
oldest in-flight submission. -/
def stepEvent (m : MachineState) (e : Event) : MachineState :=
  match e with
  | .submit =>
      if trimString m.chat.inputValue ≠ "" ∧ m.chat.isThinking = false then
        { m with
          chat := { m.chat with inputValue := "", isThinking := true },
          inflight := m.inflight ++ [trimString m.chat.inputValue] }
      else m
  | .resolve o =>
      match m.inflight with
      | [] => m
      | text :: rest =>
          let askCall := BackendCall.ask text m.chat.sessionId
          match o with
          | .askError =>
              { m with
                chat := { m.chat with isThinking := false },
                inflight := rest,
                calls := m.calls ++ [askCall] }
          | .fetchError =>
              { m with
                chat := { m.chat with isThinking := false },
                inflight := rest,
                calls := m.calls ++ [askCall, .fetchHistory] }
          | .success history =>
              { m with
                chat := { m.chat with isThinking := false, logs := history },
                inflight := rest,
                calls := m.calls ++ [askCall, .fetchHistory] }

/-- Run a sequence of events from a machine state. -/
def runEvents (m : MachineState) : List Event → MachineState
  | [] => m
  | e :: es => runEvents (stepEvent m e) es

/-! ## Push-channel listener (App.tsx: the `axis-observer-event`
effect) -/

/-- The listener callback: wraps the payload into a synthetic
`InteractionLog` (fresh id, current active session, empty user tokens,
payload as the AI response, provider `"Observer"`) and appends it:
`setLogs(prev => [...prev, newMessage])`. -/
def observerEvent (s : ChatState) (payload freshId : String) (nowTs : Nat) : ChatState :=
  let newMessage : InteractionLog :=
    { id := freshId,
      session_id := s.sessionId,
      timestamp := nowTs,
      user_tokens := [],
      ai_response := payload,
      provider_used := "Observer" }
  { s with logs := s.logs ++ [newMessage] }

/-- Lifecycle state of one listener-effect run: whether the local
`unlisten` variable has been assigned, and whether the backend listener
is registered (active). -/
structure ListenerState where
  unlistenAssigned : Bool
  listenerActive : Bool
deriving DecidableEq, Repr

/-- Events of one listener-effect run: `resolve` is the `await listen(...)`
promise resolving (listener registered, `unlisten` assigned); `cleanup`
is the effect cleanup `() => { if (unlisten) unlisten() }`, which
unregisters only when `unlisten` has already been assigned. -/
inductive ListenerEvent where
  | resolve
  | cleanup
deriving DecidableEq, Repr

/-- One listener-lifecycle step. -/
def listenerStep (s : ListenerState) (e : ListenerEvent) : ListenerState :=
  match e with
  | .resolve => { unlistenAssigned := true, listenerActive := true }
  | .cleanup => if s.unlistenAssigned then { s with listenerActive := false } else s

/-- Run the lifecycle of one effect run from its initial state
(`unlisten` unassigned, no listener registered). -/
def listenerRun (es : List ListenerEvent) : ListenerState :=
  es.foldl listenerStep ⟨false, false⟩

/-! ## Helper lemmas: the single-flight invariant of the submit machine -/

/-- The machine invariant: at most one submission is outstanding, and
the busy flag holds exactly when one is. -/
def MachineInv (m : MachineState) : Prop :=
  m.inflight.length ≤ 1 ∧ (m.chat.isThinking = true ↔ m.inflight ≠ [])

lemma stepEvent_preserves_inv (m : MachineState) (e : Event)
    (h : MachineInv m) : MachineInv (stepEvent m e) := by
  obtain ⟨hlen, hiff⟩ := h
  cases e with
  | submit =>
      by_cases hg : trimString m.chat.inputValue ≠ "" ∧ m.chat.isThinking = false
      · have hempty : m.inflight = [] := by
          by_contra hne
          exact absurd (hiff.mpr hne) (by simp [hg.2])
        simp [stepEvent, hg.1, hg.2, MachineInv, hempty]
      · simp only [stepEvent, if_neg hg]
        exact ⟨hlen, hiff⟩
  | resolve o =>
      cases hin : m.inflight with
      | nil => simpa [stepEvent, hin] using ⟨hlen, hiff⟩
      | cons text rest =>
          have hrest : rest = [] := by
            have := hlen
            rw [hin] at this
            simpa using this
          cases o <;> simp [stepEvent, hin, hrest, MachineInv]

lemma runEvents_inv (es : List Event) :
    ∀ m : MachineState, MachineInv m → MachineInv (runEvents m es) := by
  induction es with
  | nil => intro m h; exact h
  | cons e es ih => intro m h; exact ih _ (stepEvent_preserves_inv m e h)

lemma machine_inv_reachable (s0 : ChatState) (es : List Event)
    (h0 : s0.isThinking = false) :
    MachineInv (runEvents (initMachine s0) es) :=
  runEvents_inv es (initMachine s0) (by simp [MachineInv, initMachine, h0])

/-- C1: for every sequence of submit calls interleaved with in-flight
completions, at most one submission is in flight at any instant, and a
submit arriving while the busy flag is set, or while the input buffer
trims to empty, is a no-op: the whole machine state (input buffer, busy
flag, backend-call trace) is unchanged. -/
theorem submit_single_flight (s0 : ChatState) (es : List Event)
    (h0 : s0.isThinking = false) :
    (runEvents (initMachine s0) es).inflight.length ≤ 1 ∧
    ((runEvents (initMachine s0) es).chat.isThinking = true →
      stepEvent (runEvents (initMachine s0) es) Event.submit
        = runEvents (initMachine s0) es) ∧
    (trimString (runEvents (initMachine s0) es).chat.inputValue = "" →
      stepEvent (runEvents (initMachine s0) es) Event.submit
        = runEvents (initMachine s0) es) := by
  obtain ⟨hlen, hiff⟩ := machine_inv_reachable s0 es h0
  refine ⟨hlen, ?_, ?_⟩
  · intro hbusy
    have : ¬(trimString (runEvents (initMachine s0) es).chat.inputValue ≠ "" ∧
        (runEvents (initMachine s0) es).chat.isThinking = false) := by
      rintro ⟨-, hfalse⟩
      rw [hbusy] at hfalse
      exact Bool.noConfusion hfalse
    simp only [stepEvent, if_neg this]
  · intro hblank
    have : ¬(trimString (runEvents (initMachine s0) es).chat.inputValue ≠ "" ∧
        (runEvents (initMachine s0) es).chat.isThinking = false) := by
      rintro ⟨hne, -⟩
      exact hne hblank
    simp only [stepEvent, if_neg this]

/-- Witness for C1 at a concrete trace: after one accepted submit the
machine is busy and a second submit changes nothing. -/
theorem submit_single_flight_witness :
    stepEvent (runEvents (initMachine ⟨[], "s1", "hi", false⟩) [Event.submit]) Event.submit
      = runEvents (initMachine ⟨[], "s1", "hi", false⟩) [Event.submit] :=
  (submit_single_flight ⟨[], "s1", "hi", false⟩ [Event.submit] rfl).2.1 (by decide)

/-- C2: for a non-empty, non-busy submit completing successfully, the
post-state log collection is exactly the snapshot returned by the
history provider (a full replacement, for every possible snapshot), and the
backend calls issued are the ask followed by the history fetch. -/
theorem submit_reloads_history (s : ChatState) (history : List InteractionLog)
    (hne : trimString s.inputValue ≠ "") (hbusy : s.isThinking = false) :
    (executeSend s (.success history)).1.logs = history ∧
    (executeSend s (.success history)).2
      = [BackendCall.ask (trimString s.inputValue) s.sessionId, BackendCall.fetchHistory] := by
  simp [executeSend, hne, hbusy]

/-- Witness for C2: concrete submit whose reload returns an empty
snapshot, wiping a previously non-empty local log collection. -/
theorem submit_reloads_history_witness :
    (executeSend ⟨[⟨"x", "s1", 0, [], "r", "gpt"⟩], "s1", " hi ", false⟩
        (.success [])).1.logs = [] :=
  (submit_reloads_history ⟨[⟨"x", "s1", 0, [], "r", "gpt"⟩], "s1", " hi ", false⟩ []
    (by decide) rfl).1

/-- C9: on a backend error during a non-empty, non-busy submit (whether
the ask call or the follow-up history fetch rejects), the input buffer
stays cleared (not restored), the log collection and active session id
keep their last-known-good values, and the busy flag is cleared on
every exit path, success included. -/
theorem submit_error_handling (s : ChatState)
    (hne : trimString s.inputValue ≠ "") (hbusy : s.isThinking = false) :
    (executeSend s .askError).1 = { s with inputValue := "", isThinking := false } ∧
    (executeSend s .fetchError).1 = { s with inputValue := "", isThinking := false } ∧
    (executeSend s .askError).1.logs = s.logs ∧
    (executeSend s .askError).1.sessionId = s.sessionId ∧
    (∀ o : AskOutcome, (executeSend s o).1.isThinking = false) := by
  refine ⟨by simp [executeSend, hne, hbusy], by simp [executeSend, hne, hbusy],
    by simp [executeSend, hne, hbusy], by simp [executeSend, hne, hbusy], ?_⟩
  intro o
  cases o <;> simp [executeSend, hne, hbusy]

/-- Witness for C9 at a concrete failing submit. -/
theorem submit_error_handling_witness :
    (executeSend ⟨[⟨"x", "s1", 0, [], "r", "gpt"⟩], "s1", "hi", false⟩ .askError).1
      = ⟨[⟨"x", "s1", 0, [], "r", "gpt"⟩], "s1", "", false⟩ :=
  (submit_error_handling ⟨[⟨"x", "s1", 0, [], "r", "gpt"⟩], "s1", "hi", false⟩
    (by decide) rfl).1

/-- C10: submit never changes the active session id, for every
pre-state and every provider outcome — the post-ask history reload
replaces only the log collection. -/
theorem submit_preserves_active_session (s : ChatState) (o : AskOutcome) :
    (executeSend s o).1.sessionId = s.sessionId := by
  unfold executeSend
  split
  · cases o <;> rfl
  · rfl

/-! ## Helper lemmas: the derived session list -/

lemma mem_insertUnique (acc : List String) (x y : String) :
    y ∈ insertUnique acc x ↔ y ∈ acc ∨ y = x := by
  unfold insertUnique
  split
  · rename_i hmem
    constructor
    · exact Or.inl
    · rintro (h | rfl)
      · exact h
      · exact hmem
  · simp

lemma nodup_insertUnique (acc : List String) (x : String) (h : acc.Nodup) :
    (insertUnique acc x).Nodup := by
  unfold insertUnique
  split
  · exact h
  · rename_i hmem
    simp [List.nodup_append, h, hmem]

lemma mem_foldl_insertUnique (l : List InteractionLog) :
    ∀ (acc : List String) (y : String),
      y ∈ l.foldl (fun acc lg => insertUnique acc lg.session_id) acc ↔
        y ∈ acc ∨ y ∈ l.map (fun lg => lg.session_id) := by
  induction l with
  | nil => intro acc y; simp
  | cons a l ih =>
      intro acc y
      rw [List.foldl_cons, ih, mem_insertUnique]
      simp [or_assoc]

lemma nodup_foldl_insertUnique (l : List InteractionLog) :
    ∀ acc : List String, acc.Nodup →
      (l.foldl (fun acc lg => insertUnique acc lg.session_id) acc).Nodup := by
  induction l with
  | nil => intro acc h; exact h
  | cons a l ih =>
      intro acc h
      exact ih _ (nodup_insertUnique acc a.session_id h)

lemma mem_uniqueIds (l : List InteractionLog) (y : String) :
    y ∈ uniqueIds l ↔ y ∈ l.map (fun lg => lg.session_id) := by
  rw [uniqueIds, mem_foldl_insertUnique]
  simp

lemma nodup_uniqueIds (l : List InteractionLog) : (uniqueIds l).Nodup :=
  nodup_foldl_insertUnique l [] List.nodup_nil

/-- C4 as stated is false on the code: with the initial empty-string
active session id, `sessions` does not synthesize the active id into
the list, so the active id is not a member. -/
theorem sessions_empty_id_counterexample :
    sessions [] "" = [] ∧ "" ∉ sessions [] "" := by decide

/-- C4 amended: for every log collection and every *non-empty* active
session id, the session list consists of the distinct session ids of
the logs in first-appearance order with the active id appended exactly
when absent; in particular the active id and the session id of every log are
members, and the list has no duplicates. -/
theorem sessions_contains_active_amended (logs : List InteractionLog) (sid : String)
    (h : sid ≠ "") :
    sid ∈ sessions logs sid ∧
    (∀ l ∈ logs, l.session_id ∈ sessions logs sid) ∧
    (sessions logs sid).Nodup ∧
    (sid ∉ uniqueIds logs → sessions logs sid = uniqueIds logs ++ [sid]) ∧
    (sid ∈ uniqueIds logs → sessions logs sid = uniqueIds logs) := by
  by_cases hm : sid ∈ uniqueIds logs
  · have hs : sessions logs sid = uniqueIds logs := by
      unfold sessions
      rw [if_neg]
      rintro ⟨-, habs⟩
      exact habs hm
    refine ⟨hs ▸ hm, ?_, hs ▸ nodup_uniqueIds logs, fun habs => absurd hm habs, fun _ => hs⟩
    intro l hl
    rw [hs, mem_uniqueIds]
    exact List.mem_map_of_mem _ hl
  · have hs : sessions logs sid = uniqueIds logs ++ [sid] := by
      unfold sessions
      rw [if_pos ⟨h, hm⟩]
    refine ⟨by simp [hs], ?_, ?_, fun _ => hs, fun habs => absurd habs hm⟩
    · intro l hl
      rw [hs]
      refine List.mem_append_left _ ?_
      rw [mem_uniqueIds]
      exact List.mem_map_of_mem _ hl
    · rw [hs]
      simp [List.nodup_append, nodup_uniqueIds, hm]

/-- Witness for the amended C4 theorem: a freshly generated session id
with zero logs is still listed. -/
theorem sessions_contains_active_witness :
    "fresh" ∈ sessions [⟨"a", "s1", 0, [], "", "gpt"⟩] "fresh" :=
  (sessions_contains_active_amended [⟨"a", "s1", 0, [], "", "gpt"⟩] "fresh" (by decide)).1

/-- C3: a successful startup history load replaces the whole log
collection; a non-empty result makes the session id of the last log active,
an empty result installs the freshly generated id; on the two-log
scenario the active session becomes "s2" and the session list is
["s1", "s2"]. -/
theorem init_history_sets_active_session (s : ChatState)
    (history : List InteractionLog) (freshId : String) :
    (init s history freshId).logs = history ∧
    (history = [] → (init s history freshId).sessionId = freshId) ∧
    (∀ last, history.getLast? = some last →
      (init s history freshId).sessionId = last.session_id) ∧
    (init s [⟨"a", "s1", 0, [], "", "gpt"⟩, ⟨"b", "s2", 0, [], "", "gpt"⟩] freshId).sessionId
      = "s2" ∧
    sessions (init s [⟨"a", "s1", 0, [], "", "gpt"⟩, ⟨"b", "s2", 0, [], "", "gpt"⟩] freshId).logs
        (init s [⟨"a", "s1", 0, [], "", "gpt"⟩, ⟨"b", "s2", 0, [], "", "gpt"⟩] freshId).sessionId
      = ["s1", "s2"] := by
  refine ⟨?_, ?_, ?_, rfl, rfl⟩
  · cases h : history.getLast? <;> simp [init, h]
  · rintro rfl; rfl
  · intro last h; simp [init, h]

/-- Witness for C3: an empty provider result installs the fresh id. -/
theorem init_history_witness :
    (init ⟨[], "", "", false⟩ [] "fresh").sessionId = "fresh" :=
  (init_history_sets_active_session ⟨[], "", "", false⟩ [] "fresh").2.1 rfl

/-- C5: a push-channel delivery received while the active session id is
`s.sessionId` appends exactly one new interaction log — fresh id, the
active session id at receipt, empty user tokens, provider "Observer",
the payload as AI response — and modifies no existing log and no other
state slot. -/
theorem observer_event_appends_log (s : ChatState) (payload freshId : String)
    (nowTs : Nat) :
    (observerEvent s payload freshId nowTs).logs
      = s.logs ++ [{ id := freshId, session_id := s.sessionId, timestamp := nowTs,
                     user_tokens := [], ai_response := payload,
                     provider_used := "Observer" }] ∧
    (observerEvent s payload freshId nowTs).logs.length = s.logs.length + 1 ∧
    (observerEvent s payload freshId nowTs).logs.take s.logs.length = s.logs ∧
    (observerEvent s payload freshId nowTs).sessionId = s.sessionId ∧
    (observerEvent s payload freshId nowTs).inputValue = s.inputValue ∧
    (observerEvent s payload freshId nowTs).isThinking = s.isThinking := by
  refine ⟨rfl, by simp [observerEvent], ?_, rfl, rfl, rfl⟩
  simp [observerEvent, List.take_left]

/-! ## Helper lemmas: boot cursor and rendered boot steps -/

lemma boot_steps_length : BOOT_STEPS.length = 6 := rfl

lemma bootAfter_char (k : Nat) :
    bootAfter k = if k ≤ 6 then ⟨(k : Int) - 1, false⟩ else ⟨5, true⟩ := by
  induction k with
  | zero => rfl
  | succ k ih =>
      rw [bootAfter, ih]
      by_cases h : k ≤ 6
      · rw [if_pos h]
        by_cases h5 : k ≤ 5
        · rw [if_pos (by omega : k + 1 ≤ 6)]
          simp only [bootTick, boot_steps_length]
          rw [if_neg (by simp)]
          rw [if_neg (by push_cast; omega)]
          simp only [BootState.mk.injEq]
          refine ⟨by push_cast; ring, trivial⟩
        · have h6 : k = 6 := by omega
          subst h6
          rw [if_neg (by omega)]
          simp only [bootTick, boot_steps_length]
          rw [if_neg (by simp)]
          rw [if_pos (by norm_num)]
          simp only [BootState.mk.injEq]
          norm_num
      · rw [if_neg h, if_neg (by omega)]
        simp [bootTick]

lemma bootTick_mono (s : BootState) : s.bootIndex ≤ (bootTick s).bootIndex := by
  by_cases hc : s.bootCompleted
  · simp [bootTick, hc]
  · by_cases hn : s.bootIndex + 1 ≥ (BOOT_STEPS.length : Int)
    · simp [bootTick, hc, hn]
    · simp [bootTick, hc, hn]

lemma reachable_boot_cases {c : Int} {b : Bool} (h : ∃ k, bootAfter k = ⟨c, b⟩) :
    (b = false ∧ -1 ≤ c ∧ c ≤ 5) ∨ (b = true ∧ c = 5) := by
  obtain ⟨k, hk⟩ := h
  by_cases hke : k ≤ 6
  · rw [bootAfter_char, if_pos hke] at hk
    injection hk with h1 h2
    subst h1; subst h2
    exact Or.inl ⟨rfl, by omega, by omega⟩
  · rw [bootAfter_char, if_neg hke] at hk
    injection hk with h1 h2
    subst h1; subst h2
    exact Or.inr ⟨rfl, rfl⟩

lemma statusOf_of_lt {i c : Int} (b : Bool) (h : i < c) : statusOf i c b = .ok := by
  simp [statusOf, h]

lemma statusOf_self (c : Int) : statusOf c c false = .running := by
  simp [statusOf]

lemma statusOf_pending {i c : Int} (h : c < i) : statusOf i c false = .pending := by
  unfold statusOf
  rw [if_neg (by omega)]
  rw [if_neg (by rintro ⟨heq, -⟩; omega)]
  rw [if_neg (by rintro ⟨hb, -⟩; exact Bool.noConfusion hb)]

lemma statusOf_completed {i : Int} (h : i ≤ 5) : statusOf i 5 true = .ok := by
  rcases lt_or_eq_of_le h with hlt | heq
  · exact statusOf_of_lt true hlt
  · subst heq
    unfold statusOf
    rw [if_neg (by omega)]
    rw [if_neg (by rintro ⟨-, hb⟩; exact Bool.noConfusion hb)]
    rw [if_pos ⟨rfl, by rw [boot_steps_length]; norm_num⟩]

lemma timestampOf_pending {start : Nat} {i c : Int} (h : c < i) :
    timestampOf start i c = "--:--:--" := by
  unfold timestampOf
  rw [if_neg (by omega)]

lemma renderedSteps_length (start : Nat) (c : Int) (b : Bool) :
    (renderedSteps start c b).length = 6 := rfl

lemma renderedSteps_get_status (start : Nat) (c : Int) (b : Bool) (i : Nat)
    (hi : i < (renderedSteps start c b).length) :
    ((renderedSteps start c b).get ⟨i, hi⟩).status = statusOf i c b := by
  have h6 : i < 6 := by rw [renderedSteps_length] at hi; exact hi
  interval_cases i <;> rfl

lemma renderedSteps_get_timestamp (start : Nat) (c : Int) (b : Bool) (i : Nat)
    (hi : i < (renderedSteps start c b).length) :
    ((renderedSteps start c b).get ⟨i, hi⟩).timestamp = timestampOf start i c := by
  have h6 : i < 6 := by rw [renderedSteps_length] at hi; exact hi
  interval_cases i <;> rfl

lemma renderedSteps_count_running (c : Int) (h0 : 0 ≤ c) (h5 : c ≤ 5) (start : Nat) :
    (renderedSteps start c false).countP
      (fun r => decide (r.status = BootStatus.running)) = 1 := by
  interval_cases c <;> rfl

/-- C7 as stated is false on the code: after exactly `N = BOOT_STEPS.length`
ticks the cursor has reached `N - 1` but `bootCompleted` is still false;
completion only happens on tick `N + 1`. -/
theorem boot_completed_boundary_counterexample :
    BOOT_STEPS.length ≤ 6 ∧ ¬((bootAfter 6).bootCompleted = true) := by decide

/-- C7 amended: the cursor starts at -1; after exactly `k ≤ N` ticks the
cursor is `k - 1` and not completed, and for `1 ≤ k ≤ N` step `k - 1`
has status running; after `k ≥ N + 1` ticks `bootCompleted` is true and
the cursor stays at `N - 1`; no transition ever decrements the cursor. -/
theorem boot_cursor_progression_amended (k : Nat) :
    (k ≤ BOOT_STEPS.length → bootAfter k = ⟨(k : Int) - 1, false⟩) ∧
    (BOOT_STEPS.length < k → bootAfter k = ⟨(BOOT_STEPS.length : Int) - 1, true⟩) ∧
    (1 ≤ k → k ≤ BOOT_STEPS.length →
      statusOf ((k : Int) - 1) (bootAfter k).bootIndex (bootAfter k).bootCompleted
        = BootStatus.running) ∧
    (∀ s : BootState, s.bootIndex ≤ (bootTick s).bootIndex) := by
  refine ⟨?_, ?_, ?_, bootTick_mono⟩
  · intro hk
    rw [boot_steps_length] at hk
    rw [bootAfter_char, if_pos hk]
  · intro hk
    rw [boot_steps_length] at hk
    rw [bootAfter_char, if_neg (by omega), boot_steps_length]
    norm_num
  · intro h1 hk
    rw [boot_steps_length] at hk
    rw [bootAfter_char, if_pos hk]
    exact statusOf_self _

/-- Witness for the amended C7 theorem at concrete tick counts. -/
theorem boot_cursor_progression_witness :
    bootAfter 3 = ⟨(3 : Nat) - (1 : Int), false⟩ ∧
    bootAfter 7 = ⟨(BOOT_STEPS.length : Int) - 1, true⟩ :=
  ⟨(boot_cursor_progression_amended 3).1 (by decide),
   (boot_cursor_progression_amended 7).2.1 (by decide)⟩

/-- C8 as stated is false on the code: the initial reachable pair
(cursor -1, not completed) renders zero running steps, not exactly one. -/
theorem boot_render_initial_counterexample :
    bootAfter 0 = ⟨-1, false⟩ ∧
    (renderedSteps 0 (-1) false).countP
      (fun r => decide (r.status = BootStatus.running)) = 0 := by decide

/-- C8 amended: for every reachable (cursor, completed) pair, the cursor
is non-decreasing across transitions; while not completed and once the
cursor is non-negative (after the first tick) exactly one rendered step
is running; every rendered step with index ≤ cursor is ok or running;
every step with index > cursor is pending and renders the literal
"--:--:--" timestamp. -/
theorem boot_render_invariants_amended (c : Int) (b : Bool)
    (hreach : ∃ k, bootAfter k = ⟨c, b⟩) (start : Nat) :
    (b = false → 0 ≤ c →
      (renderedSteps start c b).countP
        (fun r => decide (r.status = BootStatus.running)) = 1) ∧
    (∀ (i : Nat) (hi : i < (renderedSteps start c b).length),
      ((i : Int) ≤ c →
        ((renderedSteps start c b).get ⟨i, hi⟩).status = BootStatus.ok ∨
        ((renderedSteps start c b).get ⟨i, hi⟩).status = BootStatus.running) ∧
      (c < (i : Int) →
        ((renderedSteps start c b).get ⟨i, hi⟩).status = BootStatus.pending ∧
        ((renderedSteps start c b).get ⟨i, hi⟩).timestamp = "--:--:--")) ∧
    (∀ s : BootState, s.bootIndex ≤ (bootTick s).bootIndex) := by
  rcases reachable_boot_cases hreach with ⟨hb, hlo, hhi⟩ | ⟨hb, hc⟩
  · subst hb
    refine ⟨fun _ h0 => renderedSteps_count_running c h0 hhi start, ?_, bootTick_mono⟩
    intro i hi
    rw [renderedSteps_get_status, renderedSteps_get_timestamp]
    constructor
    · intro hle
      rcases lt_or_eq_of_le hle with hlt | heq
      · exact Or.inl (statusOf_of_lt false hlt)
      · rw [heq]
        exact Or.inr (statusOf_self c)
    · intro hgt
      exact ⟨statusOf_pending hgt, timestampOf_pending hgt⟩
  · subst hb; subst hc
    refine ⟨fun hb0 => absurd hb0 (by simp), ?_, bootTick_mono⟩
    intro i hi
    rw [renderedSteps_get_status, renderedSteps_get_timestamp]
    have h6 : i < 6 := by rw [renderedSteps_length] at hi; exact hi
    constructor
    · intro hle
      exact Or.inl (statusOf_completed hle)
    · intro hgt
      exfalso
      omega

/-- Witness for the amended C8 theorem at a concrete reachable state. -/
theorem boot_render_invariants_witness :
    (renderedSteps 0 2 false).countP
      (fun r => decide (r.status = BootStatus.running)) = 1 :=
  (boot_render_invariants_amended 2 false ⟨3, by decide⟩ 0).1 rfl (by decide)

/-- C6 is violated by the code: if the effect cleanup (a session change
or unmount) runs before the `listen` promise resolves, the cleanup sees
the `unlisten` variable still unassigned and does nothing, and the
subscription that is established afterwards is never unsubscribed — a
leaked listener.  The intended order (resolve, then cleanup) does
unsubscribe. -/
theorem listener_cleanup_before_resolve_leaks :
    (listenerRun [ListenerEvent.cleanup, ListenerEvent.resolve]).listenerActive = true ∧
    (listenerRun [ListenerEvent.cleanup, ListenerEvent.resolve]).unlistenAssigned = true ∧
    (listenerRun [ListenerEvent.resolve, ListenerEvent.cleanup]).listenerActive = false := by
  decide
